import Mathlib

/-!
Shallow embedding of the temporal-order-orchestrator repository
(src/temporal_app/functions.py, src/temporal_app/activities.py,
src/temporal_app/workflows.py) and proofs of the frozen claims.

Python dictionaries are embedded as structures; a key that the code may
omit (`dict.get` with a default) becomes an `Option` field; machine floats
occur only as the unused `order_total` input, embedded as `Rat`; fallible
code returns `Except`.
-/

namespace TemporalOrder

/-! ## Data model (functions.py payloads and database rows) -/

/-- One entry of an order's `items` list, e.g. `{"sku": "ABC", "qty": 1}`.
`qty` is optional because `payment_charged` reads it with `i.get("qty", 1)`. -/
structure Item where
  sku : String
  qty : Option Nat
deriving DecidableEq, Repr

/-- An address payload is opaque to the orchestrator; it is only stored and
merged, never inspected. -/
abbrev Address := String

/-- The in-memory order payload the workflow carries along
(`{"order_id": ..., "items": [...]}`, plus the `address` key that
`OrderWorkflow.run` may add). `items` is optional because
`order_validated` and `payment_charged` read it with `order.get("items")`. -/
structure Order where
  order_id : String
  items : Option (List Item)
  address : Option Address
deriving DecidableEq, Repr

/-- `order.get("items", [])`: a missing items key behaves as the empty list
(both are falsy in Python). -/
def Order.getItems (o : Order) : List Item := o.items.getD []

/-- `i.get("qty", 1)`: a missing qty counts as 1. -/
def Item.qtyD (i : Item) : Nat := i.qty.getD 1

/-- A row of the `payments` table as written by `payment_charged`. -/
structure PaymentRow where
  payment_id : String
  order_id : String
  status : String
  amount : Nat
deriving DecidableEq, Repr

/-- A row of the `orders` table (`id`, `state`). -/
structure OrderRow where
  id : String
  state : String
deriving DecidableEq, Repr

/-- The value serialized by `json.dumps` into an event row's `payload_json`. -/
inductive Payload where
  | orderRef (order_id : String)
  | orderPayload (o : Order)
  | payment (payment_id : String) (amount : Nat)
deriving DecidableEq, Repr

/-- A row of the append-only `events` table. -/
structure EventRow where
  order_id : String
  type : String
  payload : Payload
deriving DecidableEq, Repr

/-- The relational state touched by functions.py: `orders`, `payments`,
`events` tables, each a list of rows in insertion order. -/
structure DB where
  orders : List OrderRow
  payments : List PaymentRow
  events : List EventRow
deriving DecidableEq, Repr

/-- `INSERT INTO orders ... ON CONFLICT (id) DO NOTHING`. -/
def insertOrderIfAbsent (rows : List OrderRow) (id state : String) : List OrderRow :=
  if rows.any (fun r => r.id == id) then rows else rows ++ [⟨id, state⟩]

/-- `UPDATE orders SET state = :state WHERE id = :id`. -/
def updateOrderState (rows : List OrderRow) (id state : String) : List OrderRow :=
  rows.map (fun r => if r.id == id then { r with state := state } else r)

/-! ## functions.py operations

`flaky_call()` either raises, stalls past the activity timeout, or returns;
the raising/stalling outcomes are transient failures absorbed by the
activity retry/timeout machinery (the Step Executor collaborator), so each
embedded operation models the completed execution of the function body. -/

/-- `order_received(order_id)`: insert the order row (idempotent upsert),
append an ORDER_RECEIVED event, and return the in-memory payload
`{"order_id": order_id, "items": [{"sku": "ABC", "qty": 1}]}`. -/
def order_received (db : DB) (order_id : String) : DB × Order :=
  let db := { db with
    orders := insertOrderIfAbsent db.orders order_id "RECEIVED",
    events := db.events ++ [⟨order_id, "ORDER_RECEIVED", .orderRef order_id⟩] }
  (db, { order_id := order_id, items := some [{ sku := "ABC", qty := some 1 }], address := none })

/-- `order_validated(order)`: raise `ValueError("No items to validate")`
when `not order.get("items")` (missing or empty items), else update the
order row to VALIDATED, append an event, and return True. -/
def order_validated (db : DB) (order : Order) : Except String (DB × Bool) :=
  if order.getItems.isEmpty then
    .error "No items to validate"
  else
    let order_id := order.order_id
    let db := { db with
      orders := updateOrderState db.orders order_id "VALIDATED",
      events := db.events ++ [⟨order_id, "ORDER_VALIDATED", .orderPayload order⟩] }
    .ok (db, true)

/-- The `{status, amount}` dict returned by `payment_charged`. -/
structure PayResult where
  status : String
  amount : Nat
deriving DecidableEq, Repr

/-- `amount = sum(i.get("qty", 1) for i in order.get("items", []))`. -/
def chargeAmount (order : Order) : Nat :=
  (order.getItems.map Item.qtyD).sum

/-- `payment_charged(order, payment_id)`: if a payments row for
`payment_id` exists return its stored `{status, amount}` with no writes;
otherwise insert the CHARGED row, set the order row to PAID, append a
PAYMENT_CHARGED event, and return `{"status": "CHARGED", "amount": amount}`. -/
def payment_charged (db : DB) (order : Order) (payment_id : String) : DB × PayResult :=
  let order_id := order.order_id
  let amount := chargeAmount order
  match db.payments.find? (fun r => r.payment_id == payment_id) with
  | some row => (db, { status := row.status, amount := row.amount })
  | none =>
    let newRow : PaymentRow :=
      { payment_id := payment_id, order_id := order_id, status := "CHARGED", amount := amount }
    let newEvent : EventRow :=
      { order_id := order_id, type := "PAYMENT_CHARGED", payload := .payment payment_id amount }
    let db := { db with payments := db.payments ++ [newRow] }
    let db := { db with orders := updateOrderState db.orders order_id "PAID" }
    let db := { db with events := db.events ++ [newEvent] }
    (db, { status := "CHARGED", amount := amount })

/-- Number of payments rows carrying a given idempotency token. -/
def tokenCount (db : DB) (payment_id : String) : Nat :=
  db.payments.countP (fun r => r.payment_id == payment_id)

/-! ## workflows.py: signal handlers and phases -/

/-- The values `OrderWorkflow.self.state` takes (string constants in the
source; `AWAITING_MANUAL_APPROVAL` is the code's name for the spec's
AWAITING_APPROVAL). -/
inductive Phase where
  | INIT
  | RECEIVING
  | VALIDATING
  | AWAITING_MANUAL_APPROVAL
  | CHARGING_PAYMENT
  | SHIPPING
  | SHIPPING_FAILED
  | MARKING_SHIPPED
  | COMPLETED
  | CANCELLED
deriving DecidableEq, Repr

/-- The signal-visible mutable fields of `OrderWorkflow`. -/
structure WFState where
  state : Phase
  last_error : Option String
  order_cancelled : Bool
  manual_review_approved : Bool
  updated_address : Option Address
deriving DecidableEq, Repr

/-- `OrderWorkflow.__init__`. -/
def WFState.init : WFState :=
  { state := .INIT, last_error := none, order_cancelled := false,
    manual_review_approved := false, updated_address := none }

/-- The list `["SHIPPING", "MARKING_SHIPPED", "COMPLETED",
"CHARGING_PAYMENT"]` that `cancel_order` tests the state against. -/
def nonCancellablePhases : List Phase :=
  [.SHIPPING, .MARKING_SHIPPED, .COMPLETED, .CHARGING_PAYMENT]

/-- `cancel_order` signal: set the flag unless the state is in
`["SHIPPING", "MARKING_SHIPPED", "COMPLETED", "CHARGING_PAYMENT"]`. -/
def cancel_order (ws : WFState) : WFState :=
  if ws.state ∉ nonCancellablePhases then
    { ws with order_cancelled := true }
  else
    ws

/-- `update_address` signal: store the address unless the state is in
`["SHIPPING", "MARKING_SHIPPED", "COMPLETED"]`. -/
def update_address (ws : WFState) (address : Address) : WFState :=
  if ws.state ∉ ([.SHIPPING, .MARKING_SHIPPED, .COMPLETED] : List Phase) then
    { ws with updated_address := some address }
  else
    ws

/-- `approve_order` signal: set the approval flag unconditionally. -/
def approve_order (ws : WFState) : WFState :=
  { ws with manual_review_approved := true }

/-! ## workflows.py: OrderWorkflow.run as a step machine

`run` is a straight-line coroutine that suspends at each `await`
(activity call, `wait_condition`, `sleep`, child workflow).  We embed it
as a machine: the program counter names the suspension point the
coroutine is parked at (carrying the coroutine's live locals), and one
step consumes one external event — a delivered signal, or the resolution
of the pending await.  Signal handlers run only while the coroutine is
suspended, which is exactly when the machine accepts events. -/

/-- Constants from the source: `max_shipping_retries = 3`, the
`workflow.sleep(timedelta(seconds=2))` between shipping attempts, and the
`timeout=timedelta(seconds=30)` on the approval `wait_condition`. -/
def maxShippingRetries : Nat := 3

/-- Fixed delay in seconds between shipping attempts. -/
def shippingRetryDelaySeconds : Nat := 2

/-- Approval wait timeout in time-units (seconds). -/
def approvalTimeoutSeconds : Nat := 30

/-- `str(asyncio.TimeoutError())` — the error text the except-block stores
when the approval `wait_condition` times out — is the empty string. -/
def approvalTimeoutError : String := ""

/-- `id=f"{order_id}-shipping-{attempt}"` for the child ShippingWorkflow. -/
def shippingChildId (order_id : String) (attempt : Nat) : String :=
  order_id ++ "-shipping-" ++ toString attempt

/-- Suspension points of `OrderWorkflow.run`, carrying the live locals:
the in-memory `order` payload once received, the shipping `attempt`
counter, and the `shipping_result` once the child succeeded. -/
inductive PC where
  | awaitingReceive
  | awaitingValidate (order : Order)
  | awaitingApproval (order : Order)
  | awaitingCharge (order : Order)
  | awaitingShip (order : Order) (attempt : Nat)
  | sleeping (order : Order) (nextAttempt : Nat) (delaySeconds : Nat)
  | awaitingMark (order : Order) (shipping_result : String)
  | done
deriving DecidableEq, Repr

/-- How the run ended: `returned s` for a normal return, `raised e` for an
exception propagating out of the except-block (a FAILED saga). -/
inductive Outcome where
  | returned (s : String)
  | raised (e : String)
deriving DecidableEq, Repr

/-- External events a suspended run can consume: delivered signals, and
resolutions of the pending await (activity completion or failure, the
approval timer firing, the retry sleep elapsing, child workflow result). -/
inductive Ev where
  | sigCancel
  | sigUpdateAddress (address : Address)
  | sigApprove
  | receiveOk (order : Order)
  | receiveFail (err : String)
  | validateOk
  | validateFail (err : String)
  | approvalTimer
  | chargeOk
  | chargeFail (err : String)
  | shipOk (result : String)
  | shipFail (err : String)
  | sleepDone
  | markOk
  | markFail (err : String)
deriving DecidableEq, Repr

/-- A machine configuration: the signal-visible fields, the suspension
point, the chronological-in-reverse list of `self.state` assignments
(head = current phase), the child-workflow ids started so far, and the
outcome once the run ended. -/
structure Config where
  ws : WFState
  pc : PC
  trace : List Phase
  shipIds : List String
  outcome : Option Outcome
deriving DecidableEq, Repr

/-- `self.state = p`: assign the phase and record it in the trace. -/
def setPhase (c : Config) (p : Phase) : Config :=
  { c with ws := { c.ws with state := p }, trace := p :: c.trace }

/-- Normal return of the coroutine. -/
def retWith (c : Config) (s : String) : Config :=
  { c with pc := .done, outcome := some (.returned s) }

/-- The `except Exception` block: `self.last_error = str(e)` then re-raise,
failing the run. -/
def failWith (c : Config) (e : String) : Config :=
  { c with
    ws := { c.ws with last_error := some e }
    pc := .done
    outcome := some (.raised e) }

/-- Inputs of `OrderWorkflow.run`; the machine reads `order_id` (child
workflow ids) and `payment_id` (charge arguments); `customer_id`,
`customer_name`, `order_total`, `priority` only feed search attributes
and the (mis-arity) receive call, modelled separately. -/
structure RunInputs where
  order_id : String
  payment_id : String
  customer_id : String
  customer_name : String
  order_total : Rat
  priority : String
deriving DecidableEq, Repr

/-- Code after the approval `wait_condition` resolves with the condition
true (lines 179-198): cancel check, address merge, transition to
CHARGING_PAYMENT and suspend on the charge activity. -/
def afterWait (c : Config) (order : Order) : Config :=
  if c.ws.order_cancelled then
    retWith (setPhase c .CANCELLED) "CANCELLED"
  else
    let order :=
      match c.ws.updated_address with
      | some a => { order with address := some a }
      | none => order
    let c := setPhase c .CHARGING_PAYMENT
    { c with pc := .awaitingCharge order }

/-- Entry into the approval wait (lines 170-177): set the phase, then the
`wait_condition` returns immediately when the condition already holds. -/
def enterApproval (c : Config) (order : Order) : Config :=
  let c := setPhase c .AWAITING_MANUAL_APPROVAL
  if c.ws.manual_review_approved || c.ws.order_cancelled then
    afterWait c order
  else
    { c with pc := .awaitingApproval order }

/-- After a signal handler runs, the parked `wait_condition` re-evaluates
its lambda and resumes the coroutine when it holds. -/
def resumeWait (c : Config) : Config :=
  match c.pc with
  | .awaitingApproval order =>
    if c.ws.manual_review_approved || c.ws.order_cancelled then
      afterWait c order
    else
      c
  | _ => c

/-- Start of the shipping retry loop body (lines 210-218): start the child
ShippingWorkflow with id `f"{order_id}-shipping-{attempt}"` and suspend. -/
def startShipAttempt (inp : RunInputs) (c : Config) (order : Order) (attempt : Nat) : Config :=
  { c with
    shipIds := c.shipIds ++ [shippingChildId inp.order_id attempt]
    pc := .awaitingShip order attempt }

/-- One step of the suspended coroutine on one event.  Events that do not
match the pending await are ignored (they cannot occur); a finished run
consumes nothing. -/
def step (inp : RunInputs) (c : Config) (e : Ev) : Config :=
  if c.pc = .done then c
  else
    match e with
    | .sigCancel => resumeWait { c with ws := cancel_order c.ws }
    | .sigUpdateAddress a => { c with ws := update_address c.ws a }
    | .sigApprove => resumeWait { c with ws := approve_order c.ws }
    | .receiveOk order =>
      match c.pc with
      | .awaitingReceive =>
        if c.ws.order_cancelled then
          retWith (setPhase c .CANCELLED) "CANCELLED"
        else
          let c := setPhase c .VALIDATING
          { c with pc := .awaitingValidate order }
      | _ => c
    | .receiveFail err =>
      match c.pc with
      | .awaitingReceive => failWith c err
      | _ => c
    | .validateOk =>
      match c.pc with
      | .awaitingValidate order =>
        if c.ws.order_cancelled then
          retWith (setPhase c .CANCELLED) "CANCELLED"
        else
          enterApproval c order
      | _ => c
    | .validateFail err =>
      match c.pc with
      | .awaitingValidate _ => failWith c err
      | _ => c
    | .approvalTimer =>
      match c.pc with
      | .awaitingApproval order =>
        if c.ws.manual_review_approved || c.ws.order_cancelled then
          afterWait c order
        else
          failWith c approvalTimeoutError
      | _ => c
    | .chargeOk =>
      match c.pc with
      | .awaitingCharge order =>
        let c := setPhase c .SHIPPING
        startShipAttempt inp c order 0
      | _ => c
    | .chargeFail err =>
      match c.pc with
      | .awaitingCharge _ => failWith c err
      | _ => c
    | .shipOk result =>
      match c.pc with
      | .awaitingShip order _ =>
        let c := setPhase c .MARKING_SHIPPED
        { c with pc := .awaitingMark order result }
      | _ => c
    | .shipFail err =>
      match c.pc with
      | .awaitingShip order attempt =>
        let msg := "Shipping attempt " ++ toString (attempt + 1) ++ " failed: " ++ err
        let c := { c with ws := { c.ws with last_error := some msg } }
        if attempt + 1 < maxShippingRetries then
          { c with pc := .sleeping order (attempt + 1) shippingRetryDelaySeconds }
        else
          let c := setPhase c .SHIPPING_FAILED
          failWith c
            ("Shipping failed after " ++ toString maxShippingRetries ++ " attempts: " ++ err)
      | _ => c
    | .sleepDone =>
      match c.pc with
      | .sleeping order next _ => startShipAttempt inp c order next
      | _ => c
    | .markOk =>
      match c.pc with
      | .awaitingMark _ result => retWith (setPhase c .COMPLETED) result
      | _ => c
    | .markFail err =>
      match c.pc with
      | .awaitingMark _ _ => failWith c err
      | _ => c

/-- Configuration at the first suspension: `__init__` ran, search
attributes were upserted, `self.state = "RECEIVING"` executed, and the
coroutine awaits the receive activity. -/
def initConfig : Config :=
  { ws := { WFState.init with state := .RECEIVING },
    pc := .awaitingReceive,
    trace := [.RECEIVING, .INIT],
    shipIds := [],
    outcome := none }

/-- The run of `OrderWorkflow.run` under a sequence of external events. -/
def run (inp : RunInputs) (es : List Ev) : Config :=
  es.foldl (step inp) initConfig

/-- Chronological phase trace of a run. -/
def phaseTrace (c : Config) : List Phase := c.trace.reverse

/-! ## Activity call sites and signatures (C8)

`OrderWorkflow.run` invokes the receive activity as
`execute_activity(receive_order_activity, args=[order_id, customer_id,
order_total, priority], ...)` (workflows.py lines 144-148), while
`receive_order_activity` is declared as `async def
receive_order_activity(order_id: str)` (activities.py line 21). -/

/-- A positional argument value in an activity invocation. -/
inductive ActivityArgVal where
  | str (s : String)
  | num (q : Rat)
deriving DecidableEq, Repr

/-- The argument list the workflow passes to the receive activity. -/
def receiveOrderCallArgs (order_id customer_id : String) (order_total : Rat)
    (priority : String) : List ActivityArgVal :=
  [.str order_id, .str customer_id, .num order_total, .str priority]

/-- Number of positional parameters in `receive_order_activity`'s
signature: exactly one, `order_id`. -/
def receiveOrderActivityParamCount : Nat := 1

/-- A Python call binds its positional arguments only when their number
equals the callee's positional parameter count (no varargs or defaults in
`receive_order_activity`). -/
def callBindsParams (args : List ActivityArgVal) (paramCount : Nat) : Bool :=
  args.length == paramCount

/-! ## Reachable traces and the run invariant -/

/-- Phases the state machine never leaves (FAILED terminations surface as
a raised `Outcome`, not as a distinct `self.state` value). -/
def isTerminal (p : Phase) : Bool :=
  p ∈ ([.COMPLETED, .CANCELLED, .SHIPPING_FAILED] : List Phase)

/-- The spec's state graph: the linear chain, the early exits to
CANCELLED from states up to and including the approval wait, and
SHIPPING → SHIPPING_FAILED. -/
def specEdge : Phase → Phase → Bool
  | .INIT, .RECEIVING => true
  | .RECEIVING, .VALIDATING => true
  | .VALIDATING, .AWAITING_MANUAL_APPROVAL => true
  | .AWAITING_MANUAL_APPROVAL, .CHARGING_PAYMENT => true
  | .CHARGING_PAYMENT, .SHIPPING => true
  | .SHIPPING, .MARKING_SHIPPED => true
  | .MARKING_SHIPPED, .COMPLETED => true
  | .INIT, .CANCELLED => true
  | .RECEIVING, .CANCELLED => true
  | .VALIDATING, .CANCELLED => true
  | .AWAITING_MANUAL_APPROVAL, .CANCELLED => true
  | .SHIPPING, .SHIPPING_FAILED => true
  | _, _ => false

/-- Executable pairwise check that consecutive elements are graph edges. -/
def chainB : List Phase → Bool
  | a :: b :: rest => specEdge a b && chainB (b :: rest)
  | _ => true

theorem chain'_of_chainB :
    ∀ t : List Phase, chainB t = true → List.Chain' (fun a b => specEdge a b = true) t
  | [] , _ => by simp
  | [_], _ => by simp
  | a :: b :: l, h => by
    rw [List.chain'_cons]
    simp only [chainB, Bool.and_eq_true] at h
    exact ⟨h.1, chain'_of_chainB (b :: l) h.2⟩

/-- Trace (newest first) at the receive await. -/
def recvTrace : List Phase := [.RECEIVING, .INIT]

/-- Trace at the validate await. -/
def valTrace : List Phase := .VALIDATING :: recvTrace

/-- Trace at the approval wait. -/
def apprTrace : List Phase := .AWAITING_MANUAL_APPROVAL :: valTrace

/-- Trace at the charge await. -/
def chargeTrace : List Phase := .CHARGING_PAYMENT :: apprTrace

/-- Trace during the shipping retry loop. -/
def shipTrace : List Phase := .SHIPPING :: chargeTrace

/-- Trace at the mark-shipped await. -/
def markTrace : List Phase := .MARKING_SHIPPED :: shipTrace

/-- Every phase trace a run can ever exhibit (the six suspension-point
traces, which are also the traces of runs failed by an activity error or
the approval timeout, and the five terminal extensions). -/
def reachableTraces : List (List Phase) :=
  [recvTrace, valTrace, apprTrace, chargeTrace, shipTrace, markTrace,
   .CANCELLED :: recvTrace, .CANCELLED :: valTrace, .CANCELLED :: apprTrace,
   .SHIPPING_FAILED :: shipTrace, .COMPLETED :: markTrace]

/-- What each suspension point pins down: the exact trace so far, how many
shipping attempts have started, and — while parked on the approval
`wait_condition` — that its condition is still false. -/
def pcInv (c : Config) : Prop :=
  match c.pc with
  | .awaitingReceive => c.trace = recvTrace ∧ c.shipIds = []
  | .awaitingValidate _ => c.trace = valTrace ∧ c.shipIds = []
  | .awaitingApproval _ =>
    c.trace = apprTrace ∧ c.shipIds = [] ∧
    c.ws.manual_review_approved = false ∧ c.ws.order_cancelled = false
  | .awaitingCharge _ => c.trace = chargeTrace ∧ c.shipIds = []
  | .awaitingShip _ attempt =>
    c.trace = shipTrace ∧ c.shipIds.length = attempt + 1 ∧ attempt + 1 ≤ maxShippingRetries
  | .sleeping _ next delay =>
    c.trace = shipTrace ∧ c.shipIds.length = next ∧ next < maxShippingRetries ∧
    delay = shippingRetryDelaySeconds
  | .awaitingMark _ _ => c.trace = markTrace
  | .done => c.trace ∈ reachableTraces

/-- Invariant of all reachable configurations. -/
structure Inv (inp : RunInputs) (c : Config) : Prop where
  headState : c.trace.head? = some c.ws.state
  shipShape : c.shipIds = (List.range c.shipIds.length).map (shippingChildId inp.order_id)
  shipBound : c.shipIds.length ≤ maxShippingRetries
  pcOk : pcInv c

theorem inv_init (inp : RunInputs) : Inv inp initConfig := by
  refine ⟨rfl, rfl, by simp [initConfig, maxShippingRetries], ?_⟩
  simp [pcInv, initConfig, recvTrace]

theorem range_map_snoc (f : Nat → String) (l : List String)
    (h : l = (List.range l.length).map f) :
    l ++ [f l.length] = (List.range (l.length + 1)).map f := by
  conv_lhs => rw [h]
  rw [List.range_succ, List.map_append]
  simp

@[simp] theorem cancel_order_state (ws : WFState) : (cancel_order ws).state = ws.state := by
  unfold cancel_order; split <;> rfl

@[simp] theorem cancel_order_approved (ws : WFState) :
    (cancel_order ws).manual_review_approved = ws.manual_review_approved := by
  unfold cancel_order; split <;> rfl

@[simp] theorem update_address_state (ws : WFState) (a : Address) :
    (update_address ws a).state = ws.state := by
  unfold update_address; split <;> rfl

@[simp] theorem update_address_cancelled (ws : WFState) (a : Address) :
    (update_address ws a).order_cancelled = ws.order_cancelled := by
  unfold update_address; split <;> rfl

@[simp] theorem update_address_approved (ws : WFState) (a : Address) :
    (update_address ws a).manual_review_approved = ws.manual_review_approved := by
  unfold update_address; split <;> rfl

theorem inv_afterWait (inp : RunInputs) (c : Config) (order : Order)
    (htr : c.trace = apprTrace) (hship : c.shipIds = []) :
    Inv inp (afterWait c order) := by
  unfold afterWait
  by_cases hc : c.ws.order_cancelled
  · refine ⟨?_, ?_, ?_, ?_⟩ <;>
      simp [hc, retWith, setPhase, hship, maxShippingRetries, pcInv, htr, reachableTraces]
  · refine ⟨?_, ?_, ?_, ?_⟩ <;>
      simp [hc, setPhase, hship, maxShippingRetries, pcInv, htr, chargeTrace]

theorem inv_enterApproval (inp : RunInputs) (c : Config) (order : Order)
    (htr : c.trace = valTrace) (hship : c.shipIds = []) :
    Inv inp (enterApproval c order) := by
  unfold enterApproval
  by_cases hcond : c.ws.manual_review_approved || c.ws.order_cancelled
  · simp only [setPhase, hcond, if_true]
    exact inv_afterWait inp _ order (by simp [htr, apprTrace]) (by simp [hship])
  · rw [Bool.or_eq_true] at hcond
    push_neg at hcond
    refine ⟨?_, ?_, ?_, ?_⟩ <;>
      simp [hcond, setPhase, hship, maxShippingRetries, pcInv, htr, apprTrace,
        Bool.not_eq_true] at *

theorem inv_startShipAttempt (inp : RunInputs) (c : Config) (order : Order) (attempt : Nat)
    (hhead : c.trace.head? = some c.ws.state)
    (hshape : c.shipIds = (List.range c.shipIds.length).map (shippingChildId inp.order_id))
    (hlen : c.shipIds.length = attempt) (hlt : attempt < maxShippingRetries)
    (htr : c.trace = shipTrace) :
    Inv inp (startShipAttempt inp c order attempt) := by
  subst hlen
  refine ⟨?_, ?_, ?_, ?_⟩
  · simpa [startShipAttempt] using hhead
  · simpa [startShipAttempt] using range_map_snoc _ _ hshape
  · simpa [startShipAttempt] using hlt
  · simp [startShipAttempt, pcInv, htr]
    exact hlt

theorem inv_step (inp : RunInputs) (c : Config) (e : Ev) (h : Inv inp c) :
    Inv inp (step inp c e) := by
  obtain ⟨h1, h2, h3, h4⟩ := h
  by_cases hd : c.pc = .done
  · have : step inp c e = c := by simp [step, hd]
    rw [this]; exact ⟨h1, h2, h3, h4⟩
  cases e with
  | sigCancel =>
    cases hpc : c.pc with
    | awaitingApproval ord =>
      simp only [pcInv, hpc] at h4
      obtain ⟨htr, hship, hap, hcn⟩ := h4
      have hst : c.ws.state = .AWAITING_MANUAL_APPROVAL := by
        rw [htr] at h1
        simpa [apprTrace] using h1.symm
      have hcanc : cancel_order c.ws = { c.ws with order_cancelled := true } := by
        simp [cancel_order, nonCancellablePhases, hst]
      have hred : step inp c .sigCancel = afterWait { c with ws := cancel_order c.ws } ord := by
        simp [step, hpc, resumeWait, hcanc, hap]
      rw [hred]
      exact inv_afterWait inp _ ord htr hship
    | _ =>
      first
      | exact absurd hpc hd
      | (have hred : step inp c .sigCancel = { c with ws := cancel_order c.ws } := by
          simp [step, hpc, resumeWait]
         rw [hred]
         refine ⟨by simpa using h1, h2, h3, ?_⟩
         simp only [pcInv, hpc] at h4 ⊢
         simpa using h4)
  | sigUpdateAddress a =>
    have hred : step inp c (.sigUpdateAddress a) = { c with ws := update_address c.ws a } := by
      simp [step, hd]
    rw [hred]
    refine ⟨by simpa using h1, h2, h3, ?_⟩
    simp only [pcInv] at h4 ⊢
    cases hpc : c.pc <;> rw [hpc] at h4 <;> simpa using h4
  | sigApprove =>
    cases hpc : c.pc with
    | awaitingApproval ord =>
      simp only [pcInv, hpc] at h4
      obtain ⟨htr, hship, hap, hcn⟩ := h4
      have hred : step inp c .sigApprove = afterWait { c with ws := approve_order c.ws } ord := by
        simp [step, hpc, resumeWait, approve_order]
      rw [hred]
      exact inv_afterWait inp _ ord htr hship
    | _ =>
      first
      | exact absurd hpc hd
      | (have hred : step inp c .sigApprove = { c with ws := approve_order c.ws } := by
          simp [step, hpc, resumeWait]
         rw [hred]
         refine ⟨by simpa [approve_order] using h1, h2, h3, ?_⟩
         simp only [pcInv, hpc] at h4 ⊢
         simpa [approve_order] using h4)
  | receiveOk order =>
    cases hpc : c.pc with
    | awaitingReceive =>
      simp only [pcInv, hpc] at h4
      obtain ⟨htr, hship⟩ := h4
      by_cases hc : c.ws.order_cancelled
      · have hred : step inp c (.receiveOk order) = retWith (setPhase c .CANCELLED) "CANCELLED" := by
          simp [step, hpc, hc]
        rw [hred]
        refine ⟨rfl, ?_, ?_, ?_⟩ <;>
          simp [retWith, setPhase, hship, maxShippingRetries, pcInv, htr, reachableTraces]
      · have hred : step inp c (.receiveOk order) =
            { setPhase c .VALIDATING with pc := .awaitingValidate order } := by
          simp [step, hpc, hc]
        rw [hred]
        refine ⟨rfl, ?_, ?_, ?_⟩ <;>
          simp [setPhase, hship, maxShippingRetries, pcInv, htr, valTrace]
    | _ =>
      have hred : step inp c (.receiveOk order) = c := by simp [step, hpc]
      rw [hred]; exact ⟨h1, h2, h3, h4⟩
  | receiveFail err =>
    cases hpc : c.pc with
    | awaitingReceive =>
      simp only [pcInv, hpc] at h4
      have hred : step inp c (.receiveFail err) = failWith c err := by simp [step, hpc]
      rw [hred]
      refine ⟨by simpa [failWith] using h1, h2, h3, ?_⟩
      simp [failWith, pcInv, h4.1, reachableTraces]
    | _ =>
      have hred : step inp c (.receiveFail err) = c := by simp [step, hpc]
      rw [hred]; exact ⟨h1, h2, h3, h4⟩
  | validateOk =>
    cases hpc : c.pc with
    | awaitingValidate ord =>
      simp only [pcInv, hpc] at h4
      obtain ⟨htr, hship⟩ := h4
      by_cases hc : c.ws.order_cancelled
      · have hred : step inp c .validateOk = retWith (setPhase c .CANCELLED) "CANCELLED" := by
          simp [step, hpc, hc]
        rw [hred]
        refine ⟨rfl, ?_, ?_, ?_⟩ <;>
          simp [retWith, setPhase, hship, maxShippingRetries, pcInv, htr, reachableTraces]
      · have hred : step inp c .validateOk = enterApproval c ord := by simp [step, hpc, hc]
        rw [hred]
        exact inv_enterApproval inp c ord htr hship
    | _ =>
      have hred : step inp c .validateOk = c := by simp [step, hpc]
      rw [hred]; exact ⟨h1, h2, h3, h4⟩
  | validateFail err =>
    cases hpc : c.pc with
    | awaitingValidate ord =>
      simp only [pcInv, hpc] at h4
      have hred : step inp c (.validateFail err) = failWith c err := by simp [step, hpc]
      rw [hred]
      refine ⟨by simpa [failWith] using h1, h2, h3, ?_⟩
      simp [failWith, pcInv, h4.1, reachableTraces]
    | _ =>
      have hred : step inp c (.validateFail err) = c := by simp [step, hpc]
      rw [hred]; exact ⟨h1, h2, h3, h4⟩
  | approvalTimer =>
    cases hpc : c.pc with
    | awaitingApproval ord =>
      simp only [pcInv, hpc] at h4
      obtain ⟨htr, hship, hap, hcn⟩ := h4
      have hred : step inp c .approvalTimer = failWith c approvalTimeoutError := by
        simp [step, hpc, hap, hcn]
      rw [hred]
      refine ⟨by simpa [failWith] using h1, h2, h3, ?_⟩
      simp [failWith, pcInv, htr, reachableTraces]
    | _ =>
      have hred : step inp c .approvalTimer = c := by simp [step, hpc]
      rw [hred]; exact ⟨h1, h2, h3, h4⟩
  | chargeOk =>
    cases hpc : c.pc with
    | awaitingCharge ord =>
      simp only [pcInv, hpc] at h4
      obtain ⟨htr, hship⟩ := h4
      have hred : step inp c .chargeOk = startShipAttempt inp (setPhase c .SHIPPING) ord 0 := by
        simp [step, hpc]
      rw [hred]
      refine inv_startShipAttempt inp _ ord 0 ?_ ?_ ?_ ?_ ?_ <;>
        simp [setPhase, hship, maxShippingRetries, htr, shipTrace]
    | _ =>
      have hred : step inp c .chargeOk = c := by simp [step, hpc]
      rw [hred]; exact ⟨h1, h2, h3, h4⟩
  | chargeFail err =>
    cases hpc : c.pc with
    | awaitingCharge ord =>
      simp only [pcInv, hpc] at h4
      have hred : step inp c (.chargeFail err) = failWith c err := by simp [step, hpc]
      rw [hred]
      refine ⟨by simpa [failWith] using h1, h2, h3, ?_⟩
      simp [failWith, pcInv, h4.1, reachableTraces]
    | _ =>
      have hred : step inp c (.chargeFail err) = c := by simp [step, hpc]
      rw [hred]; exact ⟨h1, h2, h3, h4⟩
  | shipOk result =>
    cases hpc : c.pc with
    | awaitingShip ord attempt =>
      simp only [pcInv, hpc] at h4
      obtain ⟨htr, hlen, hle⟩ := h4
      have hred : step inp c (.shipOk result) =
          { setPhase c .MARKING_SHIPPED with pc := .awaitingMark ord result } := by
        simp [step, hpc]
      rw [hred]
      refine ⟨rfl, by simpa [setPhase] using h2, by simpa [setPhase] using h3, ?_⟩
      simp [setPhase, pcInv, htr, markTrace]
    | _ =>
      have hred : step inp c (.shipOk result) = c := by simp [step, hpc]
      rw [hred]; exact ⟨h1, h2, h3, h4⟩
  | shipFail err =>
    cases hpc : c.pc with
    | awaitingShip ord attempt =>
      simp only [pcInv, hpc] at h4
      obtain ⟨htr, hlen, hle⟩ := h4
      by_cases hlt : attempt + 1 < maxShippingRetries
      · have hred : step inp c (.shipFail err) =
            { c with
              ws := { c.ws with last_error := some ("Shipping attempt " ++ toString (attempt + 1) ++ " failed: " ++ err) }
              pc := .sleeping ord (attempt + 1) shippingRetryDelaySeconds } := by
          simp [step, hpc, hlt]
        rw [hred]
        refine ⟨by simpa using h1, h2, h3, ?_⟩
        simp [pcInv, htr, hlen, hlt]
      · have hred : step inp c (.shipFail err) =
            failWith
              (setPhase
                { c with
                  ws := { c.ws with last_error := some ("Shipping attempt " ++ toString (attempt + 1) ++ " failed: " ++ err) } }
                .SHIPPING_FAILED)
              ("Shipping failed after " ++ toString maxShippingRetries ++ " attempts: " ++ err) := by
          simp [step, hpc, hlt]
        rw [hred]
        refine ⟨by simp [failWith, setPhase], by simpa [failWith, setPhase] using h2,
          by simpa [failWith, setPhase] using h3, ?_⟩
        simp [failWith, setPhase, pcInv, htr, reachableTraces]
    | _ =>
      have hred : step inp c (.shipFail err) = c := by simp [step, hpc]
      rw [hred]; exact ⟨h1, h2, h3, h4⟩
  | sleepDone =>
    cases hpc : c.pc with
    | sleeping ord next delay =>
      simp only [pcInv, hpc] at h4
      obtain ⟨htr, hlen, hlt, hdl⟩ := h4
      have hred : step inp c .sleepDone = startShipAttempt inp c ord next := by simp [step, hpc]
      rw [hred]
      exact inv_startShipAttempt inp c ord next h1 h2 hlen hlt htr
    | _ =>
      have hred : step inp c .sleepDone = c := by simp [step, hpc]
      rw [hred]; exact ⟨h1, h2, h3, h4⟩
  | markOk =>
    cases hpc : c.pc with
    | awaitingMark ord result =>
      simp only [pcInv, hpc] at h4
      have hred : step inp c .markOk = retWith (setPhase c .COMPLETED) result := by
        simp [step, hpc]
      rw [hred]
      refine ⟨rfl, by simpa [retWith, setPhase] using h2,
        by simpa [retWith, setPhase] using h3, ?_⟩
      simp [retWith, setPhase, pcInv, h4, reachableTraces]
    | _ =>
      have hred : step inp c .markOk = c := by simp [step, hpc]
      rw [hred]; exact ⟨h1, h2, h3, h4⟩
  | markFail err =>
    cases hpc : c.pc with
    | awaitingMark ord result =>
      simp only [pcInv, hpc] at h4
      have hred : step inp c (.markFail err) = failWith c err := by simp [step, hpc]
      rw [hred]
      refine ⟨by simpa [failWith] using h1, h2, h3, ?_⟩
      simp [failWith, pcInv, h4, reachableTraces]
    | _ =>
      have hred : step inp c (.markFail err) = c := by simp [step, hpc]
      rw [hred]; exact ⟨h1, h2, h3, h4⟩

theorem inv_foldl (inp : RunInputs) (es : List Ev) (c : Config) (h : Inv inp c) :
    Inv inp (es.foldl (step inp) c) := by
  induction es generalizing c with
  | nil => exact h
  | cons e es ih => exact ih _ (inv_step inp c e h)

theorem inv_run (inp : RunInputs) (es : List Ev) : Inv inp (run inp es) :=
  inv_foldl inp es initConfig (inv_init inp)

theorem trace_mem_reachable (inp : RunInputs) (c : Config) (h : Inv inp c) :
    c.trace ∈ reachableTraces := by
  have h4 := h.pcOk
  cases hpc : c.pc <;> simp only [pcInv, hpc] at h4 <;>
    first
    | exact h4
    | simp [h4.1, reachableTraces]
    | simp [h4, reachableTraces]

theorem state_eq_of_awaitingApproval (inp : RunInputs) (c : Config) (h : Inv inp c)
    (ord : Order) (hpc : c.pc = .awaitingApproval ord) :
    c.ws.state = .AWAITING_MANUAL_APPROVAL := by
  have h4 := h.pcOk
  simp only [pcInv, hpc] at h4
  have h1 := h.headState
  rw [h4.1] at h1
  simpa [apprTrace] using h1.symm

theorem step_sigCancel_noop (inp : RunInputs) (c : Config) (h : Inv inp c)
    (hs : c.ws.state ∈ nonCancellablePhases) : step inp c .sigCancel = c := by
  by_cases hd : c.pc = .done
  · simp [step, hd]
  have hcanc : cancel_order c.ws = c.ws := by
    simp [cancel_order, hs]
  cases hpc : c.pc with
  | awaitingApproval ord =>
    exfalso
    rw [state_eq_of_awaitingApproval inp c h ord hpc] at hs
    simp [nonCancellablePhases] at hs
  | _ =>
    first
    | exact absurd hpc hd
    | (simp [step, hpc, resumeWait, hcanc]; rw [← hpc])

theorem run_append_single (inp : RunInputs) (es : List Ev) (e : Ev) :
    run inp (es ++ [e]) = step inp (run inp es) e := by
  simp [run, List.foldl_append]

/-! ## Shared concrete fixtures -/

/-- The payload `order_received` produces for order id "O1". -/
def sampleOrder : Order :=
  { order_id := "O1", items := some [{ sku := "ABC", qty := some 1 }], address := none }

/-- A start request, as in the repo's tests. -/
def sampleInputs : RunInputs :=
  { order_id := "O1", payment_id := "P1", customer_id := "C1", customer_name := "Alice",
    order_total := 100, priority := "NORMAL" }

/-- An empty database. -/
def emptyDB : DB := { orders := [], payments := [], events := [] }

/-- An order payload with no items key. -/
def orderNoItems : Order := { order_id := "O2", items := none, address := none }

/-- Events leading to the approval wait. -/
def esToApproval : List Ev := [.receiveOk sampleOrder, .validateOk]

/-- Events leading to the charge await (approval granted). -/
def esToCharge : List Ev := [.receiveOk sampleOrder, .validateOk, .sigApprove]

/-- A full happy-path run: one shipping attempt, completed. -/
def esHappy : List Ev :=
  [.receiveOk sampleOrder, .validateOk, .sigApprove, .chargeOk, .shipOk "DISPATCHED", .markOk]

/-- A run whose shipping succeeds only on the third attempt. -/
def esThirdTry : List Ev :=
  [.receiveOk sampleOrder, .validateOk, .sigApprove, .chargeOk,
   .shipFail "carrier unavailable", .sleepDone, .shipFail "carrier unavailable", .sleepDone,
   .shipOk "DISPATCHED", .markOk]

/-- A run whose shipping fails on all three attempts. -/
def esAllFail : List Ev :=
  [.receiveOk sampleOrder, .validateOk, .sigApprove, .chargeOk,
   .shipFail "carrier unavailable", .sleepDone, .shipFail "carrier unavailable", .sleepDone,
   .shipFail "carrier unavailable"]

/-- A signal-handler state in the SHIPPING phase. -/
def wsShipping : WFState :=
  { state := .SHIPPING, last_error := none, order_cancelled := false,
    manual_review_approved := true, updated_address := none }

/-- A signal-handler state in the CHARGING_PAYMENT phase. -/
def wsCharging : WFState :=
  { state := .CHARGING_PAYMENT, last_error := none, order_cancelled := false,
    manual_review_approved := true, updated_address := none }

/-- A signal-handler state in the approval wait. -/
def wsApproval : WFState :=
  { state := .AWAITING_MANUAL_APPROVAL, last_error := none, order_cancelled := false,
    manual_review_approved := false, updated_address := none }

/-! ## List helper lemmas for the payments table -/

theorem find?_append_of_none {α : Type} (p : α → Bool) (l1 l2 : List α)
    (h : l1.find? p = none) : (l1 ++ l2).find? p = l2.find? p := by
  induction l1 with
  | nil => rfl
  | cons a l ih =>
    rw [List.find?_cons] at h
    cases hp : p a with
    | true => rw [hp] at h; exact absurd h (by simp)
    | false =>
      rw [hp] at h
      simpa [List.find?, hp] using ih h

theorem find?_eq_none_of_countP_zero {α : Type} (p : α → Bool) (l : List α)
    (h : l.countP p = 0) : l.find? p = none :=
  List.find?_eq_none.mpr (List.countP_eq_zero.mp h)

/-! ## The claims -/

/-- Claim C1: charging payment is idempotent per token.  For every database
state, order payloads and payment token, a second invocation of
`payment_charged` with the same token returns the same `{status, amount}`
result as the first, leaves the database (payments, orders, events rows)
exactly as the first invocation left it — no second payments record, no
further side effect — and the at-most-one-record-per-token invariant is
preserved. -/
theorem C1_payment_charged_idempotent :
    ∀ (db : DB) (o o' : Order) (pid : String),
      (payment_charged (payment_charged db o pid).1 o' pid).2 = (payment_charged db o pid).2 ∧
      (payment_charged (payment_charged db o pid).1 o' pid).1 = (payment_charged db o pid).1 ∧
      (∀ t, tokenCount db t ≤ 1 → tokenCount (payment_charged db o pid).1 t ≤ 1) := by
  intro db o o' pid
  cases hfind : db.payments.find? (fun r => r.payment_id == pid) with
  | some row =>
    refine ⟨?_, ?_, ?_⟩ <;> simp [payment_charged, tokenCount, hfind]
  | none =>
    have hfind2 :
        ((payment_charged db o pid).1).payments.find? (fun r => r.payment_id == pid) =
          some { payment_id := pid, order_id := o.order_id, status := "CHARGED",
                 amount := chargeAmount o } := by
      simp only [payment_charged, hfind]
      rw [find?_append_of_none _ _ _ hfind]
      simp [List.find?]
    refine ⟨?_, ?_, ?_⟩
    · simp [payment_charged, hfind, hfind2]
    · simp only [payment_charged] at hfind2 ⊢
      rw [hfind] at hfind2 ⊢
      simp only at hfind2 ⊢
      simp [hfind2]
    · intro t ht
      have hz : db.payments.countP (fun r => r.payment_id == pid) = 0 :=
        List.countP_eq_zero.mpr (List.find?_eq_none.mp hfind)
      simp only [payment_charged, hfind, tokenCount] at ht ⊢
      rw [List.countP_append]
      by_cases hpt : pid = t
      · subst hpt
        rw [hz]
        simp [List.countP_cons]
      · have hb : (({ payment_id := pid, order_id := o.order_id, status := "CHARGED", amount := chargeAmount o } : PaymentRow).payment_id == t) = false := by
          simpa using hpt
        simpa [List.countP_cons, hb] using ht

/-- Claim C1 witness: a concrete double charge on an empty database. -/
theorem C1_payment_charged_idempotent_witness :
    (payment_charged (payment_charged emptyDB sampleOrder "P1").1 sampleOrder "P1").2 =
      (payment_charged emptyDB sampleOrder "P1").2 ∧
    tokenCount emptyDB "P1" ≤ 1 ∧
    tokenCount (payment_charged emptyDB sampleOrder "P1").1 "P1" ≤ 1 :=
  ⟨(C1_payment_charged_idempotent emptyDB sampleOrder sampleOrder "P1").1,
   by decide,
   (C1_payment_charged_idempotent emptyDB sampleOrder sampleOrder "P1").2.2 "P1" (by decide)⟩

/-- Claim C3 counterexample: in phase CHARGING_PAYMENT — not one of
RECEIVING, VALIDATING, AWAITING_MANUAL_APPROVAL — the claim requires the
update to be rejected with state unchanged, but `update_address` accepts
and stores the address. -/
theorem C3_counterexample :
    wsCharging.state ∉ ([.RECEIVING, .VALIDATING, .AWAITING_MANUAL_APPROVAL] : List Phase) ∧
    update_address wsCharging "456 New St" ≠ wsCharging ∧
    (update_address wsCharging "456 New St").updated_address = some "456 New St" := by
  refine ⟨by decide, ?_, by decide⟩
  intro hcontra
  have := congrArg WFState.updated_address hcontra
  simp [update_address, wsCharging] at this

/-- Claim C3 (amended): an `update_address(address)` signal is accepted
(stored as the pending address override) exactly when the current phase is
NOT one of SHIPPING, MARKING_SHIPPED, COMPLETED — i.e. also in INIT,
CHARGING_PAYMENT and the terminal failure phases, not only in RECEIVING,
VALIDATING, AWAITING_MANUAL_APPROVAL — and is rejected with state
unchanged in SHIPPING, MARKING_SHIPPED and COMPLETED; when several updates
are accepted, the last accepted address wins. -/
theorem C3_amended_update_address :
    ∀ (ws : WFState) (a : Address),
      (ws.state ∉ ([.SHIPPING, .MARKING_SHIPPED, .COMPLETED] : List Phase) →
        update_address ws a = { ws with updated_address := some a }) ∧
      (ws.state ∈ ([.SHIPPING, .MARKING_SHIPPED, .COMPLETED] : List Phase) →
        update_address ws a = ws) ∧
      (∀ b, ws.state ∉ ([.SHIPPING, .MARKING_SHIPPED, .COMPLETED] : List Phase) →
        (update_address (update_address ws a) b).updated_address = some b) := by
  intro ws a
  refine ⟨fun h => by simp [update_address, h], fun h => by simp [update_address, h], ?_⟩
  intro b h
  simp [update_address, h]

/-- Claim C3 (amended) witness: accepted in the approval wait, rejected in
SHIPPING, and the second accepted address wins. -/
theorem C3_amended_update_address_witness :
    update_address wsApproval "A" = { wsApproval with updated_address := some "A" } ∧
    update_address wsShipping "A" = wsShipping ∧
    (update_address (update_address wsApproval "A") "B").updated_address = some "B" :=
  ⟨(C3_amended_update_address wsApproval "A").1 (by decide),
   (C3_amended_update_address wsShipping "A").2.1 (by decide),
   (C3_amended_update_address wsApproval "A").2.2 "B" (by decide)⟩

/-- Claim C8 (code bug): the workflow invokes the receive activity with the
four positional arguments `[order_id, customer_id, order_total, priority]`
(workflows.py line 146), but `receive_order_activity`'s signature declares
exactly one positional parameter `order_id` (activities.py line 21), so
the invocation's argument list is one the step's signature does NOT
accept: the call cannot bind. -/
theorem C8_receive_call_arity_mismatch :
    ∀ (order_id customer_id : String) (order_total : Rat) (priority : String),
      (receiveOrderCallArgs order_id customer_id order_total priority).length = 4 ∧
      receiveOrderActivityParamCount = 1 ∧
      callBindsParams (receiveOrderCallArgs order_id customer_id order_total priority)
        receiveOrderActivityParamCount = false := by
  intro order_id customer_id order_total priority
  exact ⟨rfl, rfl, rfl⟩

/-- Claim C9: every payload returned by `order_received` carries exactly
one item (`{"sku": "ABC", "qty": 1}`), so `order_validated`'s empty-items
error branch is unreachable on payloads produced by the receive step. -/
theorem C9_received_payload_always_validates :
    ∀ (db db' : DB) (oid : String),
      ((order_received db oid).2).getItems = [{ sku := "ABC", qty := some 1 }] ∧
      (((order_received db oid).2).getItems.map Item.qtyD) = [1] ∧
      order_validated db' ((order_received db oid).2) ≠ .error "No items to validate" ∧
      (order_validated db' ((order_received db oid).2)).isOk = true := by
  intro db db' oid
  refine ⟨rfl, rfl, ?_, ?_⟩ <;>
    simp [order_received, order_validated, Order.getItems, Except.isOk, Except.toBool]

/-- Claim C10: the amount recorded in the payments row and returned by
`payment_charged` on a fresh token is the sum of the items' `qty` fields
with a missing `qty` counting as 1, and it is a function of the items list
alone — `order_total` is not an input of `payment_charged` at all, and the
address merge performed before the charge leaves the amount unchanged. -/
theorem C10_charge_amount_is_qty_sum :
    ∀ (db : DB) (o : Order) (pid : String),
      tokenCount db pid = 0 →
      (payment_charged db o pid).2.amount = (o.getItems.map (fun i => i.qty.getD 1)).sum ∧
      (payment_charged db o pid).1.payments =
        db.payments ++
          [{ payment_id := pid, order_id := o.order_id, status := "CHARGED",
             amount := (o.getItems.map (fun i => i.qty.getD 1)).sum }] ∧
      (∀ o' : Order, o'.items = o.items →
        (payment_charged db o' pid).2.amount = (payment_charged db o pid).2.amount) ∧
      (∀ a, chargeAmount { o with address := a } = chargeAmount o) := by
  intro db o pid ht
  have hfind : db.payments.find? (fun r => r.payment_id == pid) = none :=
    find?_eq_none_of_countP_zero _ _ ht
  have hamount : chargeAmount o = (o.getItems.map (fun i => i.qty.getD 1)).sum := rfl
  refine ⟨?_, ?_, ?_, ?_⟩
  · simp [payment_charged, hfind, hamount]
  · simp [payment_charged, hfind, hamount]
  · intro o' ho
    have : chargeAmount o' = chargeAmount o := by
      simp [chargeAmount, Order.getItems, ho]
    simp [payment_charged, hfind, this]
  · intro a
    simp [chargeAmount, Order.getItems]

/-- Claim C10 witness: the charge for the sample order on an empty
database records and returns the sum of its quantities. -/
theorem C10_charge_amount_is_qty_sum_witness :
    tokenCount emptyDB "P1" = 0 ∧
    (payment_charged emptyDB sampleOrder "P1").2.amount =
      (sampleOrder.getItems.map (fun i => i.qty.getD 1)).sum :=
  ⟨by decide, (C10_charge_amount_is_qty_sum emptyDB sampleOrder "P1" (by decide)).1⟩

/-- Claim C2: a Cancel signal received while the phase is one of
CHARGING_PAYMENT, SHIPPING, MARKING_SHIPPED, COMPLETED leaves the handler
state untouched (the cancellation-requested flag is not set), inserting
such a signal into a run at any such point does not change the run at all
(so it never moves the outcome away from COMPLETED), and a run whose
trace has reached CHARGING_PAYMENT never is nor becomes CANCELLED. -/
theorem C2_cancel_ignored_after_payment :
    (∀ ws : WFState, ws.state ∈ nonCancellablePhases → cancel_order ws = ws) ∧
    (∀ (inp : RunInputs) (es1 es2 : List Ev),
      (run inp es1).ws.state ∈ nonCancellablePhases →
      run inp (es1 ++ .sigCancel :: es2) = run inp (es1 ++ es2)) ∧
    (∀ (inp : RunInputs) (es : List Ev),
      Phase.CHARGING_PAYMENT ∈ phaseTrace (run inp es) →
      (run inp es).ws.state ≠ .CANCELLED ∧ Phase.CANCELLED ∉ phaseTrace (run inp es)) := by
  refine ⟨fun ws hs => by simp [cancel_order, hs], ?_, ?_⟩
  · intro inp es1 es2 hs
    have hno := step_sigCancel_noop inp (run inp es1) (inv_run inp es1) hs
    simp only [run, List.foldl_append, List.foldl_cons]
    simp only [run] at hno
    rw [hno]
  · intro inp es hc
    have hall : ∀ t ∈ reachableTraces, Phase.CHARGING_PAYMENT ∈ t →
        t.head? ≠ some Phase.CANCELLED ∧ Phase.CANCELLED ∉ t := by decide
    have hmem := trace_mem_reachable inp _ (inv_run inp es)
    have h1 := (inv_run inp es).headState
    rw [phaseTrace, List.mem_reverse] at hc
    obtain ⟨hh, hcn⟩ := hall _ hmem hc
    constructor
    · intro hst
      rw [hst] at h1
      exact hh h1
    · rw [phaseTrace, List.mem_reverse]
      exact hcn

/-- Claim C2 witness: a concrete no-op cancel in SHIPPING, a concrete
cancel inserted after the run reached CHARGING_PAYMENT that changes
nothing, and a completed run whose trace passed CHARGING_PAYMENT and is
not CANCELLED. -/
theorem C2_cancel_ignored_after_payment_witness :
    cancel_order wsShipping = wsShipping ∧
    run sampleInputs (esToCharge ++ .sigCancel :: [.chargeOk]) =
      run sampleInputs (esToCharge ++ [.chargeOk]) ∧
    (run sampleInputs esHappy).ws.state ≠ .CANCELLED :=
  ⟨C2_cancel_ignored_after_payment.1 wsShipping (by decide),
   C2_cancel_ignored_after_payment.2.1 sampleInputs esToCharge [.chargeOk] (by decide),
   (C2_cancel_ignored_after_payment.2.2 sampleInputs esHappy (by decide)).1⟩

/-- Claim C4: when the run is parked on the approval wait — no Approve or
Cancel was observed since entering AWAITING_MANUAL_APPROVAL — and the
30-time-unit timer fires, the run terminates with a raised error (a FAILED
outcome, never a returned value, hence distinguishable from the CANCELLED
outcome, which is a normal return), the phase is not CANCELLED, and the
precipitating error text (`str(asyncio.TimeoutError())`, the empty
string) is retained as the last error. -/
theorem C4_approval_timeout_fails_run :
    ∀ (inp : RunInputs) (es : List Ev) (o : Order),
      (run inp es).pc = .awaitingApproval o →
      (run inp (es ++ [.approvalTimer])).outcome = some (.raised approvalTimeoutError) ∧
      (run inp (es ++ [.approvalTimer])).ws.last_error = some approvalTimeoutError ∧
      (run inp (es ++ [.approvalTimer])).ws.state = .AWAITING_MANUAL_APPROVAL ∧
      (run inp (es ++ [.approvalTimer])).ws.state ≠ .CANCELLED ∧
      (∀ s, (run inp (es ++ [.approvalTimer])).outcome ≠ some (.returned s)) ∧
      approvalTimeoutSeconds = 30 := by
  intro inp es o hpc
  have hinv := inv_run inp es
  have h4 := hinv.pcOk
  simp only [pcInv, hpc] at h4
  obtain ⟨htr, hship, hap, hcn⟩ := h4
  have hst := state_eq_of_awaitingApproval inp _ hinv o hpc
  have hred : run inp (es ++ [.approvalTimer]) = failWith (run inp es) approvalTimeoutError := by
    rw [run_append_single]
    simp [step, hpc, hap, hcn]
  refine ⟨?_, ?_, ?_, ?_, ?_, rfl⟩ <;> simp [hred, failWith, hst]

/-- Claim C4 witness: the timer fires on a run parked at the approval
wait after receive and validate. -/
theorem C4_approval_timeout_fails_run_witness :
    (run sampleInputs (esToApproval ++ [.approvalTimer])).outcome =
      some (.raised approvalTimeoutError) ∧
    (run sampleInputs (esToApproval ++ [.approvalTimer])).ws.state ≠ .CANCELLED ∧
    approvalTimeoutSeconds = 30 :=
  ⟨(C4_approval_timeout_fails_run sampleInputs esToApproval sampleOrder (by decide)).1,
   (C4_approval_timeout_fails_run sampleInputs esToApproval sampleOrder (by decide)).2.2.2.1,
   (C4_approval_timeout_fails_run sampleInputs esToApproval sampleOrder (by decide)).2.2.2.2.2⟩

/-- Claim C5: the shipping sub-saga is attempted at most 3 times
(`max_shipping_retries = 3`), each attempt a fresh child instance whose id
is the order id suffixed by the attempt number, with a fixed 2-second
delay between attempts; a run on which attempts 1 and 2 fail and attempt 3
succeeds reaches COMPLETED with exactly the three attempt ids and returns
the child's result, a single-success run starts exactly one attempt, and a
run on which all 3 attempts fail sets phase SHIPPING_FAILED and fails the
saga with the distinguishing error "Shipping failed after 3 attempts: ...". -/
theorem C5_shipping_retry_policy :
    (∀ (inp : RunInputs) (es : List Ev),
      (run inp es).shipIds.length ≤ maxShippingRetries ∧
      (run inp es).shipIds =
        (List.range (run inp es).shipIds.length).map (shippingChildId inp.order_id)) ∧
    maxShippingRetries = 3 ∧
    shippingRetryDelaySeconds = 2 ∧
    (run sampleInputs esThirdTry).ws.state = .COMPLETED ∧
    (run sampleInputs esThirdTry).outcome = some (.returned "DISPATCHED") ∧
    (run sampleInputs esThirdTry).shipIds =
      ["O1-shipping-0", "O1-shipping-1", "O1-shipping-2"] ∧
    (run sampleInputs esHappy).shipIds = ["O1-shipping-0"] ∧
    (run sampleInputs esAllFail).ws.state = .SHIPPING_FAILED ∧
    (run sampleInputs esAllFail).outcome =
      some (.raised "Shipping failed after 3 attempts: carrier unavailable") ∧
    (run sampleInputs esAllFail).ws.last_error =
      some "Shipping failed after 3 attempts: carrier unavailable" := by
  refine ⟨fun inp es => ⟨(inv_run inp es).shipBound, (inv_run inp es).shipShape⟩,
    rfl, rfl, ?_, ?_, ?_, ?_, ?_, ?_, ?_⟩ <;> decide

/-- Claim C6: `order_validated` raises the terminal validation error
exactly when the payload's item list is missing or empty, and an engine
run whose validate step surfaces a (non-retried) failure terminates
immediately as a FAILED saga with the reason recorded as the last error. -/
theorem C6_empty_items_terminal_validation_error :
    (∀ (db : DB) (o : Order),
      (order_validated db o = .error "No items to validate" ↔ o.getItems = []) ∧
      ((order_validated db o).isOk = true ↔ o.getItems ≠ [])) ∧
    (∀ (inp : RunInputs) (es : List Ev) (o : Order) (err : String),
      (run inp es).pc = .awaitingValidate o →
      (run inp (es ++ [.validateFail err])).outcome = some (.raised err) ∧
      (run inp (es ++ [.validateFail err])).ws.last_error = some err ∧
      (run inp (es ++ [.validateFail err])).pc = .done) := by
  constructor
  · intro db o
    by_cases hi : o.getItems = []
    · constructor
      · simp [order_validated, hi]
      · simp [order_validated, hi, Except.isOk, Except.toBool]
    · constructor
      · simp [order_validated, List.isEmpty_iff, hi]
      · simp [order_validated, List.isEmpty_iff, hi, Except.isOk, Except.toBool]
  · intro inp es o err hpc
    have hred : run inp (es ++ [.validateFail err]) = failWith (run inp es) err := by
      rw [run_append_single]
      simp [step, hpc]
    refine ⟨?_, ?_, ?_⟩ <;> simp [hred, failWith]

/-- Claim C6 witness: the missing-items payload is rejected with the
exact error, and a concrete run fails with that reason recorded. -/
theorem C6_empty_items_terminal_validation_error_witness :
    order_validated emptyDB orderNoItems = .error "No items to validate" ∧
    (run sampleInputs ([.receiveOk sampleOrder] ++ [.validateFail "No items to validate"])).outcome =
      some (.raised "No items to validate") ∧
    (run sampleInputs ([.receiveOk sampleOrder] ++ [.validateFail "No items to validate"])).ws.last_error =
      some "No items to validate" :=
  ⟨((C6_empty_items_terminal_validation_error.1 emptyDB orderNoItems).1).mpr (by decide),
   (C6_empty_items_terminal_validation_error.2 sampleInputs [.receiveOk sampleOrder] sampleOrder
     "No items to validate" (by decide)).1,
   (C6_empty_items_terminal_validation_error.2 sampleInputs [.receiveOk sampleOrder] sampleOrder
     "No items to validate" (by decide)).2.1⟩

/-- Claim C7: in every run the chronological phase trace follows the
defined state graph edge by edge — the linear chain INIT → RECEIVING →
VALIDATING → AWAITING_MANUAL_APPROVAL → CHARGING_PAYMENT → SHIPPING →
MARKING_SHIPPED → COMPLETED, early exits to CANCELLED only from states up
to and including the approval wait, and SHIPPING → SHIPPING_FAILED — and a
terminal phase (COMPLETED, CANCELLED, SHIPPING_FAILED; a FAILED outcome is
a raised error that assigns no new phase) occurs only as the final entry
of the trace, so once reached the phase never changes. -/
theorem C7_phase_monotonic_along_graph :
    ∀ (inp : RunInputs) (es : List Ev),
      List.Chain' (fun a b => specEdge a b = true) (phaseTrace (run inp es)) ∧
      ((phaseTrace (run inp es)).dropLast.all fun p => !(isTerminal p)) = true := by
  have hall : ∀ t ∈ reachableTraces,
      chainB t.reverse = true ∧
      (t.reverse.dropLast.all fun p => !(isTerminal p)) = true := by decide
  intro inp es
  obtain ⟨h1, h2⟩ := hall _ (trace_mem_reachable inp _ (inv_run inp es))
  exact ⟨chain'_of_chainB _ h1, h2⟩

end TemporalOrder
